import Mathlib

/-!
Verification of the bind-compiler / result-normalizer core of the
`n8n-nodes-oracle-database-bind` node
(`src/nodes/Oracle/OracleDatabase.node.ts`).

The embedding translates the `execute` method's helpers and its main
`reduce`-based bind-compilation loop into executable Lean definitions.
JavaScript string primitives (`split`, `trim`, `replaceAll`,
`slice(0,-1)`, `Number(...)`, `new Date(...)`) are modelled by structural
(kernel-computable) functions over the underlying character lists.
-/

namespace OracleNode

/-- View of `Except` as a sum, used only to decide equality. -/
def exceptToSum {ε α : Type} : Except ε α → ε ⊕ α
  | .error e => .inl e
  | .ok a => .inr a

instance {ε α : Type} [DecidableEq ε] [DecidableEq α] : DecidableEq (Except ε α) :=
  fun a b =>
    decidable_of_iff (exceptToSum a = exceptToSum b)
      (by cases a <;> cases b <;> simp [exceptToSum])

/-! ## JavaScript string primitives (models) -/

/-- Whitespace test used by the models of JS `trim`. -/
def isWs (c : Char) : Bool := c.isWhitespace

/-- Model of JS `String.prototype.trim`: drop whitespace at both ends. -/
def trimChars (l : List Char) : List Char :=
  ((l.dropWhile isWs).reverse.dropWhile isWs).reverse

/-- Model of JS `String.prototype.trim` on `String`. -/
def jsTrim (s : String) : String := ⟨trimChars s.data⟩

/-- Fuel-driven worker for splitting on a non-empty separator. -/
def splitOnAuxC : Nat → List Char → List Char → List Char → List (List Char)
  | 0, acc, rest, _ => [acc.reverse ++ rest]
  | _ + 1, acc, [], _ => [acc.reverse]
  | fuel + 1, acc, c :: cs, sep =>
    if sep.isPrefixOf (c :: cs) then
      acc.reverse :: splitOnAuxC fuel [] ((c :: cs).drop sep.length) sep
    else
      splitOnAuxC fuel (c :: acc) cs sep

/-- Model of JS `String.prototype.split` with a non-empty string separator:
`"".split(sep) = [""]`, separators at the end produce a trailing `""`. -/
def jsSplitOn (s sep : String) : List String :=
  if sep.data = [] then [s]
  else (splitOnAuxC (s.data.length + 1) [] s.data sep.data).map (fun l => ⟨l⟩)

/-- Fuel-driven worker for literal, non-overlapping, left-to-right
replacement of a non-empty pattern. -/
def replaceAllFuel : Nat → List Char → List Char → List Char → List Char
  | 0, s, _, _ => s
  | _ + 1, [], _, _ => []
  | fuel + 1, c :: cs, pat, rep =>
    if pat.isPrefixOf (c :: cs) then
      rep ++ replaceAllFuel fuel ((c :: cs).drop pat.length) pat rep
    else
      c :: replaceAllFuel fuel cs pat rep

/-- Model of JS `String.prototype.replaceAll` with a literal string pattern
(the node's patterns `":" + name` and `"-"` contain no regex
metacharacters, so the polyfilled regex path coincides with the literal
one).  The empty-pattern case never arises in the node. -/
def jsReplaceAll (s pat rep : String) : String :=
  if pat.data = [] then s
  else ⟨replaceAllFuel s.data.length s.data pat.data rep.data⟩

/-- Model of JS `String.prototype.slice(0, -1)`: drop the last character. -/
def jsSliceDropLast (s : String) : String := ⟨s.data.dropLast⟩

/-! ## JavaScript value domain -/

/-- A JS number as relevant to this node: `NaN` or an integer value.
(The node only ever feeds integer literals, the empty string, or
non-numeric text into `Number(...)`; fractional literals are outside the
model.) -/
inductive JSNum where
  | nan : JSNum
  | int : Int → JSNum
deriving DecidableEq, Repr

/-- A JS `Date` as relevant to this node: invalid, or a valid date
remembered by its source text. -/
inductive JSDate where
  | invalid : JSDate
  | valid : String → JSDate
deriving DecidableEq, Repr

/-- Numeric value of a digit list. -/
def digitsToNat (l : List Char) : Nat :=
  l.foldl (fun n c => n * 10 + (c.toNat - 48)) 0

/-- Model of JS `Number(raw)` on strings: trim; empty means `0`; an
optionally-signed digit string parses to its value; anything else is
`NaN`. -/
def jsToNumber (s : String) : JSNum :=
  let t := trimChars s.data
  match t with
  | [] => .int 0
  | '-' :: ds =>
    if !ds.isEmpty && ds.all Char.isDigit then .int (-(digitsToNat ds : Int)) else .nan
  | ds =>
    if ds.all Char.isDigit then .int (digitsToNat ds) else .nan

/-- Model of JS `new Date(raw)` restricted to ISO `YYYY-MM-DD` date-only
strings: such a string with a plausible month and day is a valid date;
anything else is an invalid date.  No parse ever throws. -/
def jsParseDate (s : String) : JSDate :=
  match jsSplitOn s "-" with
  | [y, m, d] =>
    if (!y.data.isEmpty && y.data.all Char.isDigit)
        && (!m.data.isEmpty && m.data.all Char.isDigit)
        && (!d.data.isEmpty && d.data.all Char.isDigit)
        && 1 ≤ digitsToNat m.data && digitsToNat m.data ≤ 12
        && 1 ≤ digitsToNat d.data && digitsToNat d.data ≤ 31 then
      .valid s
    else .invalid
  | _ => .invalid

/-- A JS value as it occurs in a compiled bind's `val` field. -/
inductive JSValue where
  | str : String → JSValue
  | numv : JSNum → JSValue
  | date : JSDate → JSValue
deriving DecidableEq, Repr

/-! ## Data model of the node (`OracleDatabase.node.ts`) -/

/-- `type ParamDatatype = "string" | "number" | "date" | "cursor"`. -/
inductive ParamDatatype where
  | string | number | date | cursor
deriving DecidableEq, Repr

/-- `type ParamDirection = "in" | "out" | "inout"` (`din`/`dout`/`dinout`
stand for the source's `"in"`/`"out"`/`"inout"`, since `in` is a Lean
keyword). -/
inductive ParamDirection where
  | din | dout | dinout
deriving DecidableEq, Repr

/-- The `oracledb` wire types the node uses
(`oracledb.STRING/NUMBER/DATE/CURSOR`). -/
inductive DbType where
  | STRING | NUMBER | DATE | CURSOR
deriving DecidableEq, Repr

/-- The driver bind directions
(`oracledb.BIND_IN/BIND_OUT/BIND_INOUT`). -/
inductive BindDir where
  | BIND_IN | BIND_OUT | BIND_INOUT
deriving DecidableEq, Repr

/-- Helper `mapDatatype` of `execute` (lines 182-194). -/
def mapDatatype : ParamDatatype → DbType
  | .number => .NUMBER
  | .date => .DATE
  | .cursor => .CURSOR
  | .string => .STRING

/-- Helper `coerceVal` of `execute` (lines 196-201):
`number` goes through `Number(raw)`, `date` through `new Date(raw)`,
everything else (string, and the never-reached cursor case) through
`String(raw)`. -/
def coerceVal (raw : String) (dt : ParamDatatype) : JSValue :=
  match dt with
  | .number => .numv (jsToNumber raw)
  | .date => .date (jsParseDate raw)
  | _ => .str raw

/-- Model of `Number(maxSize)` at the two call sites of
`ensureOutMaxSize`: an absent `maxSize` is `undefined`, and
`Number(undefined) = NaN`; a present numeric `maxSize` is itself. -/
def jsNumberOfOpt : Option Int → JSNum
  | none => .nan
  | some n => .int n

/-- JS falsiness of a number (`!maxSize`): `NaN` and `0` are falsy. -/
def numFalsy : JSNum → Bool
  | .nan => true
  | .int n => n == 0

/-- JS `Number.isNaN`. -/
def numIsNaN : JSNum → Bool
  | .nan => true
  | .int _ => false

/-- Helper `ensureOutMaxSize` of `execute` (lines 203-209):
`if (dt === "string" && (!maxSize || Number.isNaN(maxSize))) return 2000;
return maxSize;`. -/
def ensureOutMaxSize (dt : ParamDatatype) (maxSize : JSNum) : JSNum :=
  if dt == .string && (numFalsy maxSize || numIsNaN maxSize) then .int 2000
  else maxSize

/-- A compiled `oracledb.BindParameter` as the node builds it:
`dir`, `type`, optional `val`, and a `maxSize` field that is only ever
spread in for `STRING`-typed OUT/INOUT binds. -/
structure BindParameter where
  dir : BindDir
  type : DbType
  val : Option JSValue := none
  maxSize : Option JSNum := none
deriving DecidableEq, Repr

/-- One entry of the node's `params.values` UI collection
(lines 258-266): `name`, optional textual `value`, `datatype`,
`direction`, optional numeric `maxSize`, and the `parseInStatement`
flag (the spec's `expandForInList`). -/
structure ParamItem where
  name : String
  value : Option String := none
  datatype : ParamDatatype
  direction : ParamDirection
  maxSize : Option Int := none
  parseInStatement : Bool := false
deriving DecidableEq, Repr

/-- The `NodeOperationError`s thrown by the bind-compilation loop,
identified by which validation rule fired (the node carries an English
message; only the identity of the rule matters here). -/
inductive NodeOpError where
  | parseInDirection (name : String)
  | parseInCursor (name : String)
  | emptyInList (name : String)
  | cursorWithIn (name : String)
  | cursorWithInOut (name : String)
deriving DecidableEq, Repr

/-! ## Bind compilation (the `reduce` of lines 269-352) -/

/-- The state threaded through the `reduce`: the (rewritable) `query`
string, the accumulated `result` bind object, and the index of the next
generated unique suffix (determinizing `crypto.randomUUID()` into a
stream `uuid : Nat → String`). -/
structure CompileState where
  query : String
  result : List (String × BindParameter)
  nextId : Nat
deriving DecidableEq, Repr

/-- JS object assignment `result[k] = v`: if the key exists its value is
replaced in place, otherwise the entry is appended (JS objects preserve
insertion order). -/
def objSet (m : List (String × BindParameter)) (k : String) (v : BindParameter) :
    List (String × BindParameter) :=
  if m.any (fun kb => kb.1 == k) then
    m.map (fun kb => if kb.1 == k then (k, v) else kb)
  else m ++ [(k, v)]

/-- `String(value ?? "").split(",").map(trim).filter(length > 0)`
(lines 290-293). -/
def inListTokens (value : Option String) : List String :=
  ((jsSplitOn (value.getD "") ",").map jsTrim).filter (fun v => 0 < v.data.length)

/-- One iteration of the `valList.forEach` loop of the expansion branch
(lines 302-313): generate a unique name `name + uuid`, assign the IN
bind into `result`, append `:newParamName,` to the accumulated SQL
fragment. -/
def expandStep (uuid : Nat → String) (name : String) (datatype : ParamDatatype)
    (dbType : DbType) (acc : CompileState × String) (v : String) :
    CompileState × String :=
  let st := acc.1
  let newParamName := name ++ uuid st.nextId
  ({ st with
      result := objSet st.result newParamName
        ⟨.BIND_IN, dbType, some (coerceVal v datatype), none⟩,
      nextId := st.nextId + 1 },
   acc.2 ++ ":" ++ newParamName ++ ",")

/-- One iteration of the `reduce` of lines 269-352, for one descriptor.
Follows the source branch for branch:
expansion (direction check, cursor check, token split, empty check,
`forEach` generation, `slice(0,-1) + ")"`, `replaceAll`), then the
plain IN / OUT / IN OUT branches. -/
def processItem (uuid : Nat → String) (item : ParamItem) (st : CompileState) :
    Except NodeOpError CompileState :=
  let dbType := mapDatatype item.datatype
  if item.parseInStatement then
    if item.direction ≠ .din then
      .error (.parseInDirection item.name)
    else if item.datatype = .cursor then
      .error (.parseInCursor item.name)
    else
      let valList := inListTokens item.value
      if valList.isEmpty then
        .error (.emptyInList item.name)
      else
        let folded := valList.foldl (expandStep uuid item.name item.datatype dbType) (st, "(")
        let generatedSqlString := jsSliceDropLast folded.2 ++ ")"
        .ok { folded.1 with
                query := jsReplaceAll folded.1.query (":" ++ item.name) generatedSqlString }
  else if item.direction = .din then
    if item.datatype = .cursor then
      .error (.cursorWithIn item.name)
    else
      .ok { st with
              result := objSet st.result item.name
                ⟨.BIND_IN, dbType, some (coerceVal ((item.value).getD "") item.datatype), none⟩ }
  else if item.direction = .dout then
    let finalMax := ensureOutMaxSize item.datatype (jsNumberOfOpt item.maxSize)
    .ok { st with
            result := objSet st.result item.name
              ⟨.BIND_OUT, dbType, none,
               if dbType = .STRING then some finalMax else none⟩ }
  else
    if item.datatype = .cursor then
      .error (.cursorWithInOut item.name)
    else
      let finalMax := ensureOutMaxSize item.datatype (jsNumberOfOpt item.maxSize)
      .ok { st with
              result := objSet st.result item.name
                ⟨.BIND_INOUT, dbType, some (coerceVal ((item.value).getD "") item.datatype),
                 if dbType = .STRING then some finalMax else none⟩ }

/-- The whole bind-compilation phase: the `reduce` of lines 269-352 run
over the descriptor list, starting from the raw query, an empty bind
object, and suffix index 0.  Any thrown `NodeOperationError` aborts
it. -/
def compileBinds (uuid : Nat → String) (query : String) (params : List ParamItem) :
    Except NodeOpError CompileState :=
  params.foldlM (fun st item => processItem uuid item st) ⟨query, [], 0⟩

/-! ## Result normalization (`normalizeOutBinds`, lines 211-251) -/

/-- A value inside the raw output-bind section: an opaque scalar, a
cursor handle (`ResultSet`, identified by `id` and carrying the rows it
would deliver), or an array of such values. -/
inductive RawVal where
  | scalar : String → RawVal
  | resultSet : Nat → List RawVal → RawVal
  | arr : List RawVal → RawVal
deriving Repr

/-- The raw `outBinds` envelope the driver produces: absent
(`undefined`/`null`), a primitive (falls through the final
`return outBinds`), an array (`RETURNING INTO`), or an object mapping
bind names to values. -/
inductive OutBinds where
  | absent : OutBinds
  | primitive : String → OutBinds
  | arr : List RawVal → OutBinds
  | obj : List (String × RawVal) → OutBinds
deriving Repr

/-- `isResultSet` of lines 213-214 (duck-typing on
`getRows`/`close`). -/
def isResultSet : RawVal → Bool
  | .resultSet _ _ => true
  | _ => false

/-- `readResultSet` of lines 216-221: `getRows(10000)` then `close()`;
returns the fetched rows together with the released handle's id. -/
def readResultSet (id : Nat) (rows : List RawVal) : RawVal × List Nat :=
  (.arr (rows.take 10000), [id])

/-- The element treatment inside the two `map`s that only test
`isResultSet` (lines 226 and 240): a handle is drained, everything else
passes through. -/
def normLeaf : RawVal → RawVal × List Nat
  | .resultSet id rows => readResultSet id rows
  | v => (v, [])

/-- The per-value treatment inside the object branch (lines 232-244): a
handle is drained; an array is mapped elementwise with `normLeaf`;
everything else passes through. -/
def normObjVal : RawVal → RawVal × List Nat
  | .resultSet id rows => readResultSet id rows
  | .arr xs =>
    let r := xs.map normLeaf
    (.arr (r.map Prod.fst), (r.map Prod.snd).flatten)
  | v => (v, [])

/-- `normalizeOutBinds` of lines 211-251, with the released handle ids
collected alongside the value (the `Promise.all` sequencing is modelled
left-to-right).  Array branch first (`Array.isArray`), then the object
branch, then the fall-through `return outBinds` for absent/primitive
input. -/
def normalizeOutBinds : OutBinds → OutBinds × List Nat
  | .arr vs =>
    let r := vs.map normLeaf
    (.arr (r.map Prod.fst), (r.map Prod.snd).flatten)
  | .obj fields =>
    let r := fields.map (fun kv => ((kv.1, (normObjVal kv.2).1), (normObjVal kv.2).2))
    (.obj (r.map Prod.fst), (r.map Prod.snd).flatten)
  | v => (v, [])

/-! ## Orchestration (the body of `execute`, lines 253-388) -/

/-- The raw result envelope `connection.execute` returns (lines
355-362): `metaData`, `rows`, `rowsAffected`, `lastRowid`,
`outBinds`. -/
structure ExecResult where
  metaData : List String
  rows : List RawVal
  rowsAffected : Option Nat
  lastRowid : Option String
  outBinds : OutBinds
deriving Repr

/-- The single item the node assembles (lines 365-371). -/
structure ResultItem where
  metaData : List String
  rows : List RawVal
  rowsAffected : Option Nat
  lastRowid : Option String
  outBinds : OutBinds
deriving Repr

/-- What the `catch` of line 374-375 rethrows: a validation error from
bind compilation, or the executor's failure message. -/
inductive RunError where
  | validation : NodeOpError → RunError
  | execution : String → RunError
deriving Repr

/-- The environment of one invocation: node parameters, the determinized
`crypto.randomUUID()` stream, the external executor
(`connection.execute`), and the outcome of `connection.close()`. -/
structure ExecEnv where
  query : String
  params : List ParamItem
  uuid : Nat → String
  runStatement : String → List (String × BindParameter) → Except String ExecResult
  closeOutcome : Except String Unit

/-- Observable outcome of one invocation of `execute`: the returned
item or thrown error, how many times the executor ran, how many times
`connection.close()` was called, and whether a close failure was logged
(the `console.error` of line 382). -/
structure RunOutcome where
  result : Except RunError ResultItem
  execCalls : Nat
  closeCalls : Nat
  closeFailureLogged : Bool

/-- The `try`/`catch`/`finally` body of `execute` (lines 253-388):
compile binds, run the statement, assemble the item from the raw
envelope — note line 370 stores `execResult.outBinds` directly, without
invoking `normalizeOutBinds` — and always close the connection once in
`finally`, swallowing (but logging) any close failure. -/
def runExecute (env : ExecEnv) : RunOutcome :=
  let body : Except RunError ResultItem × Nat :=
    match compileBinds env.uuid env.query env.params with
    | .error e => (.error (.validation e), 0)
    | .ok st =>
      match env.runStatement st.query st.result with
      | .error msg => (.error (.execution msg), 1)
      | .ok r =>
        (.ok { metaData := r.metaData, rows := r.rows, rowsAffected := r.rowsAffected,
               lastRowid := r.lastRowid, outBinds := r.outBinds }, 1)
  { result := body.1,
    execCalls := body.2,
    closeCalls := 1,
    closeFailureLogged := match env.closeOutcome with
      | .ok _ => false
      | .error _ => true }

/-! ## Statement-side descriptions and concrete fixtures -/

/-- Statement-side description of the single bind a non-expanding
descriptor compiles to, used to characterize `processItem`'s plain
IN / OUT / IN OUT branches. -/
def simpleBind (item : ParamItem) : BindParameter :=
  match item.direction with
  | .din =>
    ⟨.BIND_IN, mapDatatype item.datatype,
     some (coerceVal ((item.value).getD "") item.datatype), none⟩
  | .dout =>
    ⟨.BIND_OUT, mapDatatype item.datatype, none,
     if mapDatatype item.datatype = .STRING then
       some (ensureOutMaxSize item.datatype (jsNumberOfOpt item.maxSize))
     else none⟩
  | .dinout =>
    ⟨.BIND_INOUT, mapDatatype item.datatype,
     some (coerceVal ((item.value).getD "") item.datatype),
     if mapDatatype item.datatype = .STRING then
       some (ensureOutMaxSize item.datatype (jsNumberOfOpt item.maxSize))
     else none⟩

/-- Statement-side description of the bind entries an expanding
descriptor generates: one IN bind named `name ++ uuid i` per token,
carrying the token coerced to the wire type. -/
def expandedEntries (uuid : Nat → String) (name : String) (dt : ParamDatatype) :
    Nat → List String → List (String × BindParameter)
  | _, [] => []
  | n, v :: vs =>
    (name ++ uuid n, ⟨.BIND_IN, mapDatatype dt, some (coerceVal v dt), none⟩)
      :: expandedEntries uuid name dt (n + 1) vs

/-- Statement-side description of the comma-separated placeholder list
`:name‹u₀›,:name‹u₁›,…` without a trailing comma. -/
def placeholderChain (uuid : Nat → String) (name : String) : Nat → List String → String
  | _, [] => ""
  | n, [_] => ":" ++ (name ++ uuid n)
  | n, _ :: v :: vs =>
    ":" ++ (name ++ uuid n) ++ "," ++ placeholderChain uuid name (n + 1) (v :: vs)

/-- The string accumulated by the `forEach` of the expansion branch:
one `:name‹uᵢ›,` segment per token (trailing comma included). -/
def commaChain (uuid : Nat → String) (name : String) : Nat → List String → String
  | _, [] => ""
  | n, _ :: vs =>
    (":" ++ (name ++ uuid n) ++ ",") ++ commaChain uuid name (n + 1) vs

/-- Fields of an object-shaped `OutBinds` (statement-side accessor). -/
def outFields : OutBinds → List (String × RawVal)
  | .obj fs => fs
  | _ => []

/-- Elements of an array-shaped `OutBinds` (statement-side accessor). -/
def outArr : OutBinds → List RawVal
  | .arr vs => vs
  | _ => []

/-- An injective determinization of `crypto.randomUUID()` used by the
concrete witnesses: suffixes `"_"`, `"_u"`, `"_uu"`, …. -/
def uuidW (i : Nat) : String := ⟨'_' :: List.replicate i 'u'⟩

/-- A degenerate suffix stream for fixtures that never expand. -/
def uuidConst (_ : Nat) : String := ""

/-- C1 fixture: a successfully executing invocation whose only
descriptor is a cursor-typed OUT parameter, the executor answering with
a cursor handle (id 0, no rows) under the bind name `result`. -/
def c1Env : ExecEnv where
  query := "BEGIN open_it(:result); END;"
  params := [⟨"result", none, .cursor, .dout, none, false⟩]
  uuid := uuidConst
  runStatement := fun _ _ =>
    .ok ⟨[], [], none, none, .obj [("result", .resultSet 0 [])]⟩
  closeOutcome := .ok ()

/-- C3 witness fixture: an invocation with a cursor-typed IN
descriptor. -/
def c3Env : ExecEnv where
  query := "SELECT 1 FROM dual"
  params := [⟨"c", none, .cursor, .din, none, false⟩]
  uuid := uuidConst
  runStatement := fun _ _ => .ok ⟨[], [], none, none, .absent⟩
  closeOutcome := .ok ()

/-- C4 witness fixture: an expanding descriptor whose value is
whitespace and commas only. -/
def c4Env : ExecEnv where
  query := "SELECT id FROM t WHERE id IN (:ids)"
  params := [⟨"ids", some "  , ,  ", .number, .din, none, true⟩]
  uuid := uuidConst
  runStatement := fun _ _ => .ok ⟨[], [], none, none, .absent⟩
  closeOutcome := .ok ()

/-! ## Helper lemmas -/

theorem sext {a b : String} (h : a.data = b.data) : a = b := by
  cases a; cases b; exact congrArg String.mk h

theorem sdata_append (a b : String) : (a ++ b).data = a.data ++ b.data := rfl

theorem sapp_empty (s : String) : s ++ "" = s := sext (by simp [sdata_append])

theorem sapp_left_cancel {p a b : String} (h : p ++ a = p ++ b) : a = b := by
  apply sext
  have h2 : p.data ++ a.data = p.data ++ b.data := by
    simpa [sdata_append] using congrArg String.data h
  exact List.append_cancel_left h2

theorem except_bind_error {ε α β : Type} (e : ε) (f : α → Except ε β) :
    (Except.error e >>= f) = Except.error e := rfl

theorem except_bind_ok {ε α β : Type} (a : α) (f : α → Except ε β) :
    (Except.ok a >>= f) = f a := rfl

theorem mapDatatype_eq_cursor {dt : ParamDatatype} :
    mapDatatype dt = .CURSOR ↔ dt = .cursor := by
  cases dt <;> simp [mapDatatype]

theorem mapDatatype_eq_string {dt : ParamDatatype} :
    mapDatatype dt = .STRING ↔ dt = .string := by
  cases dt <;> simp [mapDatatype]

theorem objSet_nil (k : String) (v : BindParameter) : objSet [] k v = [(k, v)] := rfl

theorem objSet_of_fresh {m : List (String × BindParameter)} {k : String}
    (v : BindParameter) (h : ∀ kb ∈ m, kb.1 ≠ k) : objSet m k v = m ++ [(k, v)] := by
  have hany : m.any (fun kb => kb.1 == k) = false := by
    rw [List.any_eq_false]
    intro kb hkb
    simpa using h kb hkb
  simp [objSet, hany]

theorem mem_objSet {m : List (String × BindParameter)} {k : String} {v : BindParameter}
    {kb : String × BindParameter} (h : kb ∈ objSet m k v) : kb ∈ m ∨ kb = (k, v) := by
  unfold objSet at h
  by_cases hany : m.any (fun p => p.1 == k) = true
  · rw [if_pos hany] at h
    rcases List.mem_map.mp h with ⟨x, hx, hxe⟩
    by_cases hk : (x.1 == k) = true
    · right
      rw [if_pos hk] at hxe
      exact hxe.symm
    · left
      rw [if_neg hk] at hxe
      exact hxe ▸ hx
  · rw [if_neg hany] at h
    rcases List.mem_append.mp h with h | h
    · exact Or.inl h
    · exact Or.inr (List.mem_singleton.mp h)

theorem objSet_single_replace (k : String) (b1 b2 : BindParameter) :
    objSet [(k, b1)] k b2 = [(k, b2)] := by
  simp [objSet]

theorem compile_foldlM_cons (uuid : Nat → String) (hd : ParamItem)
    (tl : List ParamItem) (st : CompileState) :
    List.foldlM (fun st item => processItem uuid item st) st (hd :: tl)
      = processItem uuid hd st >>=
          fun st2 => List.foldlM (fun st item => processItem uuid item st) st2 tl := rfl

/-- The plain (non-expanding) branches of `processItem` add exactly one
bind, `simpleBind item`, under the descriptor's own name, and touch
nothing else. -/
theorem processItem_simple (uuid : Nat → String) (item : ParamItem) (st : CompileState)
    (hp : item.parseInStatement = false)
    (hcur : item.datatype = .cursor → item.direction = .dout) :
    processItem uuid item st
      = .ok { st with result := objSet st.result item.name (simpleBind item) } := by
  obtain ⟨name, value, dt, dirn, ms, pis⟩ := item
  simp only at hp hcur
  subst hp
  cases dirn <;> cases dt <;> simp_all [processItem, simpleBind, mapDatatype]

/-- Compiling a single valid non-expanding descriptor yields exactly its
`simpleBind` under its own name, with the query untouched. -/
theorem compileBinds_single_simple (uuid : Nat → String) (query : String)
    (item : ParamItem) (hp : item.parseInStatement = false)
    (hcur : item.datatype = .cursor → item.direction = .dout) :
    compileBinds uuid query [item] = .ok ⟨query, [(item.name, simpleBind item)], 0⟩ := by
  show (processItem uuid item ⟨query, [], 0⟩ >>= fun st => pure st)
      = .ok ⟨query, [(item.name, simpleBind item)], 0⟩
  rw [processItem_simple uuid item ⟨query, [], 0⟩ hp hcur, except_bind_ok]
  rfl

/-- A descriptor violating a cursor rule makes `processItem` fail from
any state. -/
theorem processItem_cursor_err (uuid : Nat → String) (item : ParamItem)
    (st : CompileState) (hc : item.datatype = .cursor)
    (hbad : item.direction = .din ∨ item.direction = .dinout ∨
      item.parseInStatement = true) :
    ∃ e, processItem uuid item st = .error e := by
  obtain ⟨name, value, dt, dirn, ms, pis⟩ := item
  simp only at hc hbad
  subst hc
  cases pis <;> cases dirn <;> simp_all [processItem]

/-- An expanding descriptor whose token list is empty makes
`processItem` fail from any state. -/
theorem processItem_emptyList_err (uuid : Nat → String) (item : ParamItem)
    (st : CompileState) (hp : item.parseInStatement = true)
    (ht : inListTokens item.value = []) :
    ∃ e, processItem uuid item st = .error e := by
  obtain ⟨name, value, dt, dirn, ms, pis⟩ := item
  simp only at hp ht
  subst hp
  cases dirn <;> cases dt <;> simp_all [processItem]

/-- If some descriptor in the list fails from every state, the whole
fold fails. -/
theorem foldlM_err_of_mem (uuid : Nat → String) {item : ParamItem}
    (herr : ∀ st, ∃ e, processItem uuid item st = .error e) :
    ∀ (params : List ParamItem), item ∈ params → ∀ st0 : CompileState,
      ∃ e, List.foldlM (fun st it => processItem uuid it st) st0 params = .error e := by
  intro params
  induction params with
  | nil => intro hmem; cases hmem
  | cons hd tl ih =>
    intro hmem st0
    rw [compile_foldlM_cons]
    rcases List.mem_cons.mp hmem with rfl | hmem
    · obtain ⟨e, he⟩ := herr st0
      exact ⟨e, by rw [he, except_bind_error]⟩
    · cases hres : processItem uuid hd st0 with
      | error e => exact ⟨e, rfl⟩
      | ok st1 =>
        obtain ⟨e, he⟩ := ih hmem st1
        exact ⟨e, he⟩

theorem compileBinds_err_of_mem (uuid : Nat → String) (query : String)
    {params : List ParamItem} {item : ParamItem} (hmem : item ∈ params)
    (herr : ∀ st, ∃ e, processItem uuid item st = .error e) :
    ∃ e, compileBinds uuid query params = .error e :=
  foldlM_err_of_mem uuid herr params hmem ⟨query, [], 0⟩

/-- A compile failure is rethrown as a validation error and the executor
never runs. -/
theorem runExecute_of_compile_error {env : ExecEnv} {e : NodeOpError}
    (h : compileBinds env.uuid env.query env.params = .error e) :
    (runExecute env).result = .error (.validation e) ∧ (runExecute env).execCalls = 0 := by
  simp [runExecute, h]

/-- Adding a bind that respects the cursors-are-OUT rule preserves the
rule across a JS object assignment. -/
theorem objSet_cursor_inv {m : List (String × BindParameter)} {k : String}
    {v : BindParameter}
    (hm : ∀ kb ∈ m, kb.2.type = .CURSOR → kb.2.dir = .BIND_OUT)
    (hv : v.type = .CURSOR → v.dir = .BIND_OUT) :
    ∀ kb ∈ objSet m k v, kb.2.type = .CURSOR → kb.2.dir = .BIND_OUT := by
  intro kb hkb
  rcases mem_objSet hkb with h | rfl
  · exact hm kb h
  · exact hv

/-- The expansion loop only adds IN binds of a non-cursor wire type, so
it preserves the cursors-are-OUT rule. -/
theorem expand_foldl_cursor_inv (uuid : Nat → String) (name : String)
    (dt : ParamDatatype) (hdt : dt ≠ .cursor) :
    ∀ (toks : List String) (st : CompileState) (acc : String),
      (∀ kb ∈ st.result, kb.2.type = .CURSOR → kb.2.dir = .BIND_OUT) →
      ∀ kb ∈ (toks.foldl (expandStep uuid name dt (mapDatatype dt)) (st, acc)).1.result,
        kb.2.type = .CURSOR → kb.2.dir = .BIND_OUT := by
  intro toks
  induction toks with
  | nil => intro st acc h; simpa using h
  | cons v vs ih =>
    intro st acc h
    rw [List.foldl_cons]
    apply ih
    intro kb hkb
    rcases mem_objSet hkb with hmem | rfl
    · exact h kb hmem
    · intro htype
      exact absurd (mapDatatype_eq_cursor.mp htype) hdt

/-- A successful `processItem` step preserves the cursors-are-OUT
rule. -/
theorem processItem_cursor_inv (uuid : Nat → String) (item : ParamItem)
    (st st' : CompileState) (hok : processItem uuid item st = .ok st')
    (h : ∀ kb ∈ st.result, kb.2.type = .CURSOR → kb.2.dir = .BIND_OUT) :
    ∀ kb ∈ st'.result, kb.2.type = .CURSOR → kb.2.dir = .BIND_OUT := by
  simp only [processItem] at hok
  split at hok
  · -- parseInStatement branch
    split at hok
    · cases hok
    · split at hok
      · cases hok
      · split at hok
        · cases hok
        · rename_i hpis hdir hcur hne
          cases hok
          intro kb hkb
          exact expand_foldl_cursor_inv uuid item.name item.datatype hcur
            (inListTokens item.value) st "(" h kb hkb
  · split at hok
    · -- IN branch
      split at hok
      · cases hok
      · rename_i hcur
        cases hok
        intro kb hkb
        rcases mem_objSet hkb with hmem | rfl
        · exact h kb hmem
        · intro htype
          exact absurd (mapDatatype_eq_cursor.mp htype) hcur
    · split at hok
      · -- OUT branch
        cases hok
        intro kb hkb
        rcases mem_objSet hkb with hmem | rfl
        · exact h kb hmem
        · intro _; rfl
      · -- IN OUT branch
        split at hok
        · cases hok
        · rename_i hcur
          cases hok
          intro kb hkb
          rcases mem_objSet hkb with hmem | rfl
          · exact h kb hmem
          · intro htype
            exact absurd (mapDatatype_eq_cursor.mp htype) hcur

/-- A successful compile run preserves the cursors-are-OUT rule from the
empty starting map. -/
theorem compileBinds_cursor_inv (uuid : Nat → String) :
    ∀ (params : List ParamItem) (st0 : CompileState),
      (∀ kb ∈ st0.result, kb.2.type = .CURSOR → kb.2.dir = .BIND_OUT) →
      ∀ st : CompileState,
        List.foldlM (fun st it => processItem uuid it st) st0 params = .ok st →
        ∀ kb ∈ st.result, kb.2.type = .CURSOR → kb.2.dir = .BIND_OUT := by
  intro params
  induction params with
  | nil =>
    intro st0 h0 st hok
    cases hok
    exact h0
  | cons hd tl ih =>
    intro st0 h0 st hok
    rw [compile_foldlM_cons] at hok
    cases hres : processItem uuid hd st0 with
    | error e => rw [hres] at hok; cases hok
    | ok st1 =>
      rw [hres, except_bind_ok] at hok
      exact ih st1 (processItem_cursor_inv uuid hd st0 st1 hres h0) st hok

theorem paren_open_data : "(".data = ['('] := rfl

theorem paren_close_data : ")".data = [')'] := rfl

theorem comma_data : (",").data = [','] := rfl

theorem jsSliceDropLast_data (s : String) : (jsSliceDropLast s).data = s.data.dropLast := rfl

/-- The accumulated comma-terminated chain is the comma-separated
placeholder list followed by one trailing comma. -/
theorem commaChain_eq_placeholder (uuid : Nat → String) (name : String) :
    ∀ (toks : List String) (n : Nat), toks ≠ [] →
      commaChain uuid name n toks = placeholderChain uuid name n toks ++ "," := by
  intro toks
  induction toks with
  | nil => intro n h; exact absurd rfl h
  | cons v vs ih =>
    intro n _
    cases vs with
    | nil => simp [commaChain, placeholderChain, sapp_empty]
    | cons w ws =>
      show (":" ++ (name ++ uuid n) ++ ",") ++ commaChain uuid name (n + 1) (w :: ws)
          = (":" ++ (name ++ uuid n) ++ "," ++ placeholderChain uuid name (n + 1) (w :: ws))
            ++ ","
      rw [ih (n + 1) (by simp)]
      apply sext
      simp [sdata_append]

/-- `slice(0,-1)` of `"(" ++ chain` followed by `")"` is the
parenthesized placeholder list. -/
theorem slice_comma_chain (uuid : Nat → String) (name : String) (toks : List String)
    (n : Nat) (h : toks ≠ []) :
    jsSliceDropLast ("(" ++ commaChain uuid name n toks) ++ ")"
      = "(" ++ placeholderChain uuid name n toks ++ ")" := by
  rw [commaChain_eq_placeholder uuid name toks n h]
  apply sext
  simp only [sdata_append, jsSliceDropLast_data, paren_open_data, paren_close_data,
    comma_data]
  rw [← List.append_assoc, List.dropLast_concat]

/-- The expansion loop appends exactly one entry per token (fresh names
assumed), bumps the suffix counter once per token, leaves the query
untouched, and appends the comma-terminated placeholder chain to the
accumulated SQL fragment. -/
theorem expand_foldl_spec (uuid : Nat → String) (name : String) (dt : ParamDatatype) :
    ∀ (toks : List String) (st : CompileState) (acc : String),
      (∀ i, i < toks.length → ∀ kb ∈ st.result, kb.1 ≠ name ++ uuid (st.nextId + i)) →
      (∀ i j, i < toks.length → j < toks.length → i ≠ j →
        name ++ uuid (st.nextId + i) ≠ name ++ uuid (st.nextId + j)) →
      toks.foldl (expandStep uuid name dt (mapDatatype dt)) (st, acc)
        = (⟨st.query, st.result ++ expandedEntries uuid name dt st.nextId toks,
            st.nextId + toks.length⟩,
           acc ++ commaChain uuid name st.nextId toks) := by
  intro toks
  induction toks with
  | nil =>
    intro st acc _ _
    simp [expandedEntries, commaChain, sapp_empty]
  | cons v vs ih =>
    intro st acc hfresh hdist
    rw [List.foldl_cons]
    have hstep : expandStep uuid name dt (mapDatatype dt) (st, acc) v
        = (⟨st.query, st.result ++ [(name ++ uuid st.nextId,
              ⟨.BIND_IN, mapDatatype dt, some (coerceVal v dt), none⟩)], st.nextId + 1⟩,
           acc ++ ":" ++ (name ++ uuid st.nextId) ++ ",") := by
      simp only [expandStep]
      rw [objSet_of_fresh]
      intro kb hkb
      have := hfresh 0 (by simp) kb hkb
      simpa using this
    rw [hstep]
    have hih := ih ⟨st.query, st.result ++ [(name ++ uuid st.nextId,
        ⟨.BIND_IN, mapDatatype dt, some (coerceVal v dt), none⟩)], st.nextId + 1⟩
      (acc ++ ":" ++ (name ++ uuid st.nextId) ++ ",")
      (by
        intro i hi kb hkb
        rcases List.mem_append.mp hkb with hmem | hone
        · have heq : st.nextId + 1 + i = st.nextId + (i + 1) := by omega
          rw [heq]
          exact hfresh (i + 1) (by simpa using Nat.succ_lt_succ hi) kb hmem
        · obtain rfl := List.mem_singleton.mp hone
          show name ++ uuid st.nextId ≠ name ++ uuid (st.nextId + 1 + i)
          have heq : st.nextId + 1 + i = st.nextId + (i + 1) := by omega
          rw [heq]
          have h0 : st.nextId + 0 = st.nextId := by omega
          exact h0 ▸ hdist 0 (i + 1) (by simp) (by simpa using Nat.succ_lt_succ hi)
            (by omega))
      (by
        intro i j hi hj hne
        have hi' : st.nextId + 1 + i = st.nextId + (i + 1) := by omega
        have hj' : st.nextId + 1 + j = st.nextId + (j + 1) := by omega
        rw [hi', hj']
        exact hdist (i + 1) (j + 1) (by simpa using Nat.succ_lt_succ hi)
          (by simpa using Nat.succ_lt_succ hj) (by omega))
    rw [hih]
    refine Prod.ext ?_ ?_
    · show (⟨st.query, (st.result ++ _) ++ expandedEntries uuid name dt (st.nextId + 1) vs,
        st.nextId + 1 + vs.length⟩ : CompileState) = _
      have hres : (st.result ++ [(name ++ uuid st.nextId,
            ⟨.BIND_IN, mapDatatype dt, some (coerceVal v dt), none⟩)])
          ++ expandedEntries uuid name dt (st.nextId + 1) vs
          = st.result ++ expandedEntries uuid name dt st.nextId (v :: vs) := by
        rw [List.append_assoc]
        rfl
      rw [hres]
      have hn : st.nextId + 1 + vs.length = st.nextId + (v :: vs).length := by
        simp; omega
      rw [hn]
    · show (acc ++ ":" ++ (name ++ uuid st.nextId) ++ ",")
          ++ commaChain uuid name (st.nextId + 1) vs
        = acc ++ commaChain uuid name st.nextId (v :: vs)
      apply sext
      show _ = (acc ++ ((":" ++ (name ++ uuid st.nextId) ++ ",")
          ++ commaChain uuid name (st.nextId + 1) vs)).data
      simp [sdata_append]

/-- Every generated key is the base name extended by a suffix from the
generated window. -/
theorem mem_expandedEntries_fst (uuid : Nat → String) (name : String)
    (dt : ParamDatatype) :
    ∀ (toks : List String) (n : Nat) (x : String),
      x ∈ (expandedEntries uuid name dt n toks).map Prod.fst →
      ∃ i, i < toks.length ∧ x = name ++ uuid (n + i) := by
  intro toks
  induction toks with
  | nil => intro n x h; simp [expandedEntries] at h
  | cons v vs ih =>
    intro n x h
    simp only [expandedEntries, List.map_cons, List.mem_cons] at h
    rcases h with rfl | h
    · exact ⟨0, by simp, by simp⟩
    · obtain ⟨i, hi, rfl⟩ := ih (n + 1) x h
      refine ⟨i + 1, by simpa using Nat.succ_lt_succ hi, ?_⟩
      have : n + 1 + i = n + (i + 1) := by omega
      rw [this]

/-- With pairwise-distinct generated names, the generated key list has
no duplicates. -/
theorem expandedEntries_fst_nodup (uuid : Nat → String) (name : String)
    (dt : ParamDatatype) :
    ∀ (toks : List String) (n : Nat),
      (∀ i j, i < toks.length → j < toks.length → i ≠ j →
        name ++ uuid (n + i) ≠ name ++ uuid (n + j)) →
      ((expandedEntries uuid name dt n toks).map Prod.fst).Nodup := by
  intro toks
  induction toks with
  | nil => intro n _; simp [expandedEntries]
  | cons v vs ih =>
    intro n hdist
    simp only [expandedEntries, List.map_cons]
    rw [List.nodup_cons]
    constructor
    · intro hmem
      obtain ⟨i, hi, heq⟩ := mem_expandedEntries_fst uuid name dt vs (n + 1)
        (name ++ uuid n) hmem
      have h1 : n + 1 + i = n + (i + 1) := by omega
      rw [h1] at heq
      have h0 : n + 0 = n := by omega
      exact hdist 0 (i + 1) (by simp) (by simpa using Nat.succ_lt_succ hi) (by omega)
        (h0 ▸ heq)
    · exact ih (n + 1) (by
        intro i j hi hj hne
        have hi' : n + 1 + i = n + (i + 1) := by omega
        have hj' : n + 1 + j = n + (j + 1) := by omega
        rw [hi', hj']
        exact hdist (i + 1) (j + 1) (by simpa using Nat.succ_lt_succ hi)
          (by simpa using Nat.succ_lt_succ hj) (by omega))

/-- One entry per token. -/
theorem expandedEntries_length (uuid : Nat → String) (name : String)
    (dt : ParamDatatype) :
    ∀ (toks : List String) (n : Nat),
      (expandedEntries uuid name dt n toks).length = toks.length := by
  intro toks
  induction toks with
  | nil => intro n; rfl
  | cons v vs ih => intro n; simp [expandedEntries, ih]

/-! ## Claim theorems -/

/-- C5 counterexample: a string-typed OUT descriptor with the numeric
`maxSize = 0` supplied does NOT carry it through — `!maxSize` treats `0`
as unset and the compiled bind gets `maxSize = 2000`, refuting "when a
numeric maxOutputSize is supplied it is carried through" at the input
`0`. -/
theorem c5_counterexample_zero_maxsize :
    compileBinds uuidConst "SELECT f(:p) FROM dual"
      [⟨"p", none, .string, .dout, some 0, false⟩]
      = .ok ⟨"SELECT f(:p) FROM dual",
             [("p", ⟨.BIND_OUT, .STRING, none, some (.int 2000)⟩)], 0⟩ ∧
    JSNum.int 2000 ≠ JSNum.int 0 := by
  exact ⟨by decide, by decide⟩

/-- C5 (amended): for an OUT or INOUT descriptor, a string-typed bind
carries `maxOutputSize = 2000` when `maxSize` is unset **or zero**
(`Number(undefined)` is `NaN`, and both `NaN` and `0` fail the `!maxSize`
test), carries a supplied nonzero numeric `maxSize` through, and a
non-string-typed bind carries no `maxSize` at all. -/
theorem c5_amended_maxsize (uuid : Nat → String) (query name : String)
    (value : Option String) (ms : Option Int) (dt : ParamDatatype)
    (dirn : ParamDirection) (hdir : dirn = .dout ∨ dirn = .dinout)
    (hcur : dt = .cursor → dirn = .dout) :
    ∃ b, compileBinds uuid query [⟨name, value, dt, dirn, ms, false⟩]
        = .ok ⟨query, [(name, b)], 0⟩ ∧
      (dt = .string → ms = none ∨ ms = some 0 → b.maxSize = some (.int 2000)) ∧
      (∀ m : Int, dt = .string → ms = some m → m ≠ 0 → b.maxSize = some (.int m)) ∧
      (dt ≠ .string → b.maxSize = none) := by
  refine ⟨simpleBind ⟨name, value, dt, dirn, ms, false⟩,
    compileBinds_single_simple uuid query _ rfl (by intro h; exact hcur h), ?_, ?_, ?_⟩
  · rintro rfl (rfl | rfl) <;>
      rcases hdir with rfl | rfl <;>
        simp [simpleBind, mapDatatype, ensureOutMaxSize, jsNumberOfOpt, numFalsy, numIsNaN]
  · rintro m rfl rfl hm
    rcases hdir with rfl | rfl <;>
      simp [simpleBind, mapDatatype, ensureOutMaxSize, jsNumberOfOpt, numFalsy, numIsNaN, hm]
  · intro hs
    rcases hdir with rfl | rfl <;>
      cases dt <;>
        simp_all [simpleBind, mapDatatype]

/-- C5 witness: the amended theorem applied to a concrete string OUT
descriptor with `maxSize` unset. -/
theorem c5_amended_maxsize_witness :
    ∃ b, compileBinds uuidConst "q" [⟨"p", none, .string, .dout, none, false⟩]
        = .ok ⟨"q", [("p", b)], 0⟩ ∧
      (ParamDatatype.string = .string → (none : Option Int) = none ∨ (none : Option Int) = some 0 →
        b.maxSize = some (.int 2000)) ∧
      (∀ m : Int, ParamDatatype.string = .string → (none : Option Int) = some m → m ≠ 0 →
        b.maxSize = some (.int m)) ∧
      (ParamDatatype.string ≠ .string → b.maxSize = none) :=
  c5_amended_maxsize uuidConst "q" "p" none none .string .dout (Or.inl rfl) (by decide)

/-- C6 counterexample: a number-typed IN descriptor with the unparsable
value `"abc"` compiles successfully — no validation error — producing a
bind whose value is `NaN` (`Number("abc")` is `NaN`, and `coerceVal`
never throws), refuting "bind compilation fails with a validation error
before execution". -/
theorem c6_counterexample_nan_accepted :
    compileBinds uuidConst "SELECT 1 FROM t WHERE n = :n"
      [⟨"n", some "abc", .number, .din, none, false⟩]
      = .ok ⟨"SELECT 1 FROM t WHERE n = :n",
             [("n", ⟨.BIND_IN, .NUMBER, some (.numv .nan), none⟩)], 0⟩ := by
  decide

/-- C6 (amended): an IN or INOUT descriptor whose textual value fails to
parse under its datatype still compiles without any validation error:
an unparsable numeric literal is silently bound as `NaN`, and an
unparsable date as an invalid-date value. -/
theorem c6_amended_unparsable_accepted (uuid : Nat → String)
    (query name rawNum rawDate : String) (dirn : ParamDirection)
    (hdir : dirn = .din ∨ dirn = .dinout)
    (hnum : jsToNumber rawNum = .nan) (hdate : jsParseDate rawDate = .invalid) :
    compileBinds uuid query [⟨name, some rawNum, .number, dirn, none, false⟩]
      = .ok ⟨query, [(name, ⟨(if dirn = .din then .BIND_IN else .BIND_INOUT), .NUMBER,
                             some (.numv .nan), none⟩)], 0⟩ ∧
    compileBinds uuid query [⟨name, some rawDate, .date, dirn, none, false⟩]
      = .ok ⟨query, [(name, ⟨(if dirn = .din then .BIND_IN else .BIND_INOUT), .DATE,
                             some (.date .invalid), none⟩)], 0⟩ := by
  constructor <;>
    rcases hdir with rfl | rfl <;>
      rw [compileBinds_single_simple uuid query _ rfl (by intro h; simp at h)] <;>
        simp [simpleBind, mapDatatype, coerceVal, hnum, hdate]

/-- C6 witness: the amended theorem at the unparsable literals `"abc"`
(number) and `"garbage"` (date), IN direction. -/
theorem c6_amended_unparsable_accepted_witness :
    (jsToNumber "abc" = .nan ∧ jsParseDate "garbage" = .invalid) ∧
    (compileBinds uuidConst "q" [⟨"n", some "abc", .number, .din, none, false⟩]
       = .ok ⟨"q", [("n", ⟨(if ParamDirection.din = .din then .BIND_IN else .BIND_INOUT),
                           .NUMBER, some (.numv .nan), none⟩)], 0⟩ ∧
     compileBinds uuidConst "q" [⟨"n", some "garbage", .date, .din, none, false⟩]
       = .ok ⟨"q", [("n", ⟨(if ParamDirection.din = .din then .BIND_IN else .BIND_INOUT),
                           .DATE, some (.date .invalid), none⟩)], 0⟩) :=
  ⟨⟨by decide, by decide⟩,
   c6_amended_unparsable_accepted uuidConst "q" "n" "abc" "garbage" .din
     (Or.inl rfl) (by decide) (by decide)⟩

/-- C8: on every exit path the connection's `close` is invoked exactly
once (the `finally` block), and a failing `close` is logged and
swallowed: it changes neither the returned result nor whether the
executor ran, and never replaces an earlier error. -/
theorem c8_close_always_once_and_swallowed (env : ExecEnv) :
    (runExecute env).closeCalls = 1 ∧
    (∀ c' : Except String Unit,
      (runExecute { env with closeOutcome := c' }).result = (runExecute env).result ∧
      (runExecute { env with closeOutcome := c' }).execCalls = (runExecute env).execCalls) ∧
    (∀ msg : String,
      (runExecute { env with closeOutcome := .error msg }).closeFailureLogged = true) :=
  ⟨rfl, fun _ => ⟨rfl, rfl⟩, fun _ => rfl⟩

/-- C9: a non-expanding IN or INOUT descriptor of datatype `number`
whose value is missing or empty compiles without error to a bind whose
value is the number 0: `String(value ?? "")` yields `""` and
`Number("")` is `0`. -/
theorem c9_empty_number_is_zero (uuid : Nat → String) (query name : String)
    (dirn : ParamDirection) (value : Option String)
    (hdir : dirn = .din ∨ dirn = .dinout)
    (hval : value = none ∨ value = some "") :
    compileBinds uuid query [⟨name, value, .number, dirn, none, false⟩]
      = .ok ⟨query,
             [(name, ⟨(if dirn = .din then .BIND_IN else .BIND_INOUT), .NUMBER,
                      some (.numv (.int 0)), none⟩)], 0⟩ := by
  rcases hdir with rfl | rfl <;>
    rcases hval with rfl | rfl <;>
      rw [compileBinds_single_simple uuid query _ rfl (by intro h; simp at h)] <;>
        simp [simpleBind, mapDatatype, coerceVal] <;> decide

/-- C9 witness: missing value, IN direction. -/
theorem c9_empty_number_is_zero_witness :
    compileBinds uuidConst "SELECT :n FROM dual" [⟨"n", none, .number, .din, none, false⟩]
      = .ok ⟨"SELECT :n FROM dual",
             [("n", ⟨(if ParamDirection.din = .din then .BIND_IN else .BIND_INOUT), .NUMBER,
                     some (.numv (.int 0)), none⟩)], 0⟩ :=
  c9_empty_number_is_zero uuidConst "SELECT :n FROM dual" "n" .din none
    (Or.inl rfl) (Or.inl rfl)

/-- C10: two non-expanding descriptors sharing one name compile without
error to a bind mapping holding a single entry for that name, and that
entry is exactly the contract obtained by compiling the later descriptor
alone — the later descriptor silently overwrites the earlier. -/
theorem c10_duplicate_name_last_wins (uuid : Nat → String) (query : String)
    (d1 d2 : ParamItem) (hname : d1.name = d2.name)
    (hp1 : d1.parseInStatement = false) (hp2 : d2.parseInStatement = false)
    (hc1 : d1.datatype = .cursor → d1.direction = .dout)
    (hc2 : d2.datatype = .cursor → d2.direction = .dout) :
    compileBinds uuid query [d1, d2] = .ok ⟨query, [(d2.name, simpleBind d2)], 0⟩ ∧
    compileBinds uuid query [d2] = .ok ⟨query, [(d2.name, simpleBind d2)], 0⟩ := by
  refine ⟨?_, compileBinds_single_simple uuid query d2 hp2 hc2⟩
  show (processItem uuid d1 ⟨query, [], 0⟩ >>=
      fun st1 => processItem uuid d2 st1 >>= fun st2 => pure st2)
    = .ok ⟨query, [(d2.name, simpleBind d2)], 0⟩
  rw [processItem_simple uuid d1 ⟨query, [], 0⟩ hp1 hc1, except_bind_ok]
  have h2 := processItem_simple uuid d2 ⟨query, objSet [] d1.name (simpleBind d1), 0⟩ hp2 hc2
  rw [h2, except_bind_ok]
  simp [objSet_nil, hname, objSet_single_replace]
  rfl

/-- C10 witness: a number IN descriptor then a string IN descriptor,
both named `p`. -/
theorem c10_duplicate_name_last_wins_witness :
    compileBinds uuidConst "SELECT :p FROM dual"
      [⟨"p", some "1", .number, .din, none, false⟩,
       ⟨"p", some "x", .string, .din, none, false⟩]
      = .ok ⟨"SELECT :p FROM dual",
             [("p", simpleBind ⟨"p", some "x", .string, .din, none, false⟩)], 0⟩ ∧
    compileBinds uuidConst "SELECT :p FROM dual"
      [⟨"p", some "x", .string, .din, none, false⟩]
      = .ok ⟨"SELECT :p FROM dual",
             [("p", simpleBind ⟨"p", some "x", .string, .din, none, false⟩)], 0⟩ :=
  c10_duplicate_name_last_wins uuidConst "SELECT :p FROM dual"
    ⟨"p", some "1", .number, .din, none, false⟩
    ⟨"p", some "x", .string, .din, none, false⟩
    rfl rfl rfl (by decide) (by decide)

/-- C3: a cursor-typed descriptor with direction IN or IN OUT, or with
the IN-list expansion flag set, always makes bind compilation throw a
validation error and the executor is never invoked; and on every
successful compilation, every CURSOR-typed bind in the produced mapping
has direction `BIND_OUT`. -/
theorem c3_cursor_rules :
    (∀ (env : ExecEnv) (d : ParamItem), d ∈ env.params → d.datatype = .cursor →
      (d.direction = .din ∨ d.direction = .dinout ∨ d.parseInStatement = true) →
      (∃ e, (runExecute env).result = .error (.validation e)) ∧
      (runExecute env).execCalls = 0) ∧
    (∀ (uuid : Nat → String) (query : String) (params : List ParamItem)
       (st : CompileState),
      compileBinds uuid query params = .ok st →
      ∀ kb ∈ st.result, kb.2.type = .CURSOR → kb.2.dir = .BIND_OUT) := by
  constructor
  · intro env d hmem hc hbad
    obtain ⟨e, he⟩ := compileBinds_err_of_mem env.uuid env.query hmem
      (fun st => processItem_cursor_err env.uuid d st hc hbad)
    exact ⟨⟨e, (runExecute_of_compile_error he).1⟩, (runExecute_of_compile_error he).2⟩
  · intro uuid query params st hok
    exact compileBinds_cursor_inv uuid params ⟨query, [], 0⟩ (by intro kb hkb; cases hkb)
      st hok

/-- C3 witness: a cursor-typed IN descriptor fails compilation with the
executor never called, and a compiled cursor OUT descriptor's bind has
direction `BIND_OUT`. -/
theorem c3_cursor_rules_witness :
    ((∃ e, (runExecute c3Env).result = .error (.validation e)) ∧
      (runExecute c3Env).execCalls = 0) ∧
    (∀ kb ∈ [("r", BindParameter.mk .BIND_OUT .CURSOR none none)],
      kb.2.type = DbType.CURSOR → kb.2.dir = BindDir.BIND_OUT) :=
  ⟨c3_cursor_rules.1 c3Env ⟨"c", none, .cursor, .din, none, false⟩
      (by decide) rfl (Or.inl rfl),
   c3_cursor_rules.2 uuidConst "BEGIN p(:r); END;"
      [⟨"r", none, .cursor, .dout, none, false⟩]
      ⟨"BEGIN p(:r); END;", [("r", ⟨.BIND_OUT, .CURSOR, none, none⟩)], 0⟩
      (by decide)⟩

/-- C4: an expanding descriptor whose value yields zero tokens after
splitting on commas, trimming, and dropping empties always makes bind
compilation throw a validation error before anything executes. -/
theorem c4_empty_inlist_fails (env : ExecEnv) (d : ParamItem)
    (hmem : d ∈ env.params) (hp : d.parseInStatement = true)
    (ht : inListTokens d.value = []) :
    (∃ e, (runExecute env).result = .error (.validation e)) ∧
    (runExecute env).execCalls = 0 := by
  obtain ⟨e, he⟩ := compileBinds_err_of_mem env.uuid env.query hmem
    (fun st => processItem_emptyList_err env.uuid d st hp ht)
  exact ⟨⟨e, (runExecute_of_compile_error he).1⟩, (runExecute_of_compile_error he).2⟩

/-- C4 witness: expansion over the whitespace-and-commas value
`"  , ,  "`. -/
theorem c4_empty_inlist_fails_witness :
    (∃ e, (runExecute c4Env).result = .error (.validation e)) ∧
    (runExecute c4Env).execCalls = 0 :=
  c4_empty_inlist_fails c4Env ⟨"ids", some "  , ,  ", .number, .din, none, true⟩
    (by decide) rfl (by decide)

/-- C7: the result normalizer is shape-preserving.  Absent input yields
absent output; an object input yields an object with the same key list
where each cursor handle is replaced by its fetched rows (`getRows(10000)`),
every non-cursor non-array value passes through unchanged, and a nested
array keeps its length and order with handle positions drained and
non-handles unchanged; a top-level array input behaves the same way
elementwise. -/
theorem c7_normalize_shape :
    (normalizeOutBinds .absent = (.absent, [])) ∧
    (∀ fields : List (String × RawVal),
      (normalizeOutBinds (.obj fields)).1
          = .obj (outFields (normalizeOutBinds (.obj fields)).1) ∧
      (outFields (normalizeOutBinds (.obj fields)).1).map Prod.fst
          = fields.map Prod.fst ∧
      (∀ (i : Nat) (k : String) (id : Nat) (rows : List RawVal),
        fields[i]? = some (k, .resultSet id rows) →
        (outFields (normalizeOutBinds (.obj fields)).1)[i]?
          = some (k, .arr (rows.take 10000))) ∧
      (∀ (i : Nat) (k : String) (v : RawVal),
        fields[i]? = some (k, v) → isResultSet v = false → (∀ xs, v ≠ .arr xs) →
        (outFields (normalizeOutBinds (.obj fields)).1)[i]? = some (k, v)) ∧
      (∀ (i : Nat) (k : String) (xs : List RawVal),
        fields[i]? = some (k, .arr xs) →
        ∃ ys : List RawVal,
          (outFields (normalizeOutBinds (.obj fields)).1)[i]? = some (k, .arr ys) ∧
          ys.length = xs.length ∧
          (∀ (j id : Nat) (rows : List RawVal),
            xs[j]? = some (.resultSet id rows) → ys[j]? = some (.arr (rows.take 10000))) ∧
          (∀ (j : Nat) (v : RawVal),
            xs[j]? = some v → isResultSet v = false → ys[j]? = some v))) ∧
    (∀ vs : List RawVal,
      (normalizeOutBinds (.arr vs)).1 = .arr (outArr (normalizeOutBinds (.arr vs)).1) ∧
      (outArr (normalizeOutBinds (.arr vs)).1).length = vs.length ∧
      (∀ (j id : Nat) (rows : List RawVal),
        vs[j]? = some (.resultSet id rows) →
        (outArr (normalizeOutBinds (.arr vs)).1)[j]? = some (.arr (rows.take 10000))) ∧
      (∀ (j : Nat) (v : RawVal),
        vs[j]? = some v → isResultSet v = false →
        (outArr (normalizeOutBinds (.arr vs)).1)[j]? = some v)) := by
  refine ⟨rfl, ?_, ?_⟩
  · intro fields
    have hF : outFields (normalizeOutBinds (.obj fields)).1
        = fields.map (fun kv => (kv.1, (normObjVal kv.2).1)) := by
      simp [normalizeOutBinds, outFields, List.map_map]
    refine ⟨?_, ?_, ?_, ?_, ?_⟩
    · rw [hF]
      simp [normalizeOutBinds, List.map_map]
    · rw [hF]
      simp [List.map_map]
    · intro i k id rows hi
      rw [hF, List.getElem?_map, hi]
      simp [normObjVal, readResultSet]
    · intro i k v hi hrs harr
      rw [hF, List.getElem?_map, hi]
      cases v with
      | scalar a => simp [normObjVal]
      | resultSet id rows => simp [isResultSet] at hrs
      | arr xs => exact absurd rfl (harr xs)
    · intro i k xs hi
      refine ⟨xs.map (fun x => (normLeaf x).1), ?_, by simp, ?_, ?_⟩
      · rw [hF, List.getElem?_map, hi]
        simp [normObjVal, List.map_map]
      · intro j id rows hj
        rw [List.getElem?_map, hj]
        simp [normLeaf, readResultSet]
      · intro j v hj hrs
        rw [List.getElem?_map, hj]
        cases v with
        | scalar a => simp [normLeaf]
        | resultSet id rows => simp [isResultSet] at hrs
        | arr ys => simp [normLeaf]
  · intro vs
    have hW : outArr (normalizeOutBinds (.arr vs)).1
        = vs.map (fun v => (normLeaf v).1) := by
      simp [normalizeOutBinds, outArr, List.map_map]
    refine ⟨?_, ?_, ?_, ?_⟩
    · rw [hW]
      simp [normalizeOutBinds, List.map_map]
    · rw [hW]; simp
    · intro j id rows hj
      rw [hW, List.getElem?_map, hj]
      simp [normLeaf, readResultSet]
    · intro j v hj hrs
      rw [hW, List.getElem?_map, hj]
      cases v with
      | scalar a => simp [normLeaf]
      | resultSet id rows => simp [isResultSet] at hrs
      | arr ys => simp [normLeaf]

/-- C7 witness: the shape theorem applied to a concrete mapping with one
cursor handle and to a concrete nested array with two handles and one
scalar. -/
theorem c7_normalize_shape_witness :
    (normalizeOutBinds .absent = (.absent, [])) ∧
    ((outFields (normalizeOutBinds
        (.obj [("c", .resultSet 7 [.scalar "r1"]), ("s", .scalar "x")])).1).map Prod.fst
      = [("c", RawVal.resultSet 7 [.scalar "r1"]), ("s", RawVal.scalar "x")].map Prod.fst) ∧
    ((outFields (normalizeOutBinds
        (.obj [("c", .resultSet 7 [.scalar "r1"]), ("s", .scalar "x")])).1)[0]?
      = some ("c", .arr ([RawVal.scalar "r1"].take 10000))) ∧
    ((outArr (normalizeOutBinds
        (.arr [.resultSet 1 [], .scalar "s", .resultSet 2 [.scalar "a"]])).1)[1]?
      = some (.scalar "s")) :=
  ⟨c7_normalize_shape.1,
   (c7_normalize_shape.2.1 [("c", .resultSet 7 [.scalar "r1"]), ("s", .scalar "x")]).2.1,
   (c7_normalize_shape.2.1 [("c", .resultSet 7 [.scalar "r1"]), ("s", .scalar "x")]).2.2.1
     0 "c" 7 [.scalar "r1"] rfl,
   (c7_normalize_shape.2.2 [.resultSet 1 [], .scalar "s", .resultSet 2 [.scalar "a"]]).2.2.2
     1 (.scalar "s") rfl rfl⟩

/-- C1 (code bug): with a cursor-typed OUT descriptor and a successful
execution whose raw envelope holds a cursor handle under `result`, the
node returns the RAW `outBinds` — `normalizeOutBinds` is defined at
lines 211-251 but never invoked (line 370 stores `execResult.outBinds`
directly) — so the handle is neither drained nor released; had the
normalizer run, it would have produced the materialized (empty) row
array and released the handle exactly once. -/
theorem c1_outbinds_left_raw :
    (runExecute c1Env).result
      = .ok ⟨[], [], none, none, .obj [("result", .resultSet 0 [])]⟩ ∧
    (runExecute c1Env).execCalls = 1 ∧
    normalizeOutBinds (.obj [("result", .resultSet 0 [])])
      = (.obj [("result", .arr [])], [0]) :=
  ⟨rfl, rfl, rfl⟩

/-- C2 counterexample: the concrete spec template compiled with three
tokens produces three generated binds, but the literal substring `:ids`
STILL appears in the compiled SQL (three times — each generated
placeholder `:ids_…` extends it), refuting "so ':name' no longer
appears".  `jsSplitOn q ":ids"` having 4 pieces means 3 occurrences. -/
theorem c2_counterexample_name_still_appears :
    compileBinds uuidW "SELECT id FROM t WHERE id IN (:ids)"
      [⟨"ids", some "1, 2, 3", .number, .din, none, true⟩]
      = .ok ⟨"SELECT id FROM t WHERE id IN ((:ids_,:ids_u,:ids_uu))",
             [("ids_", ⟨.BIND_IN, .NUMBER, some (.numv (.int 1)), none⟩),
              ("ids_u", ⟨.BIND_IN, .NUMBER, some (.numv (.int 2)), none⟩),
              ("ids_uu", ⟨.BIND_IN, .NUMBER, some (.numv (.int 3)), none⟩)], 3⟩ ∧
    (jsSplitOn "SELECT id FROM t WHERE id IN ((:ids_,:ids_u,:ids_uu))" ":ids").length
      = 4 := by
  exact ⟨by decide, by decide⟩

/-- C2 (amended): an expanding IN descriptor with a non-cursor datatype
and at least one token compiles to exactly one generated IN bind per
non-empty trimmed comma-separated token, each carrying the token coerced
to the wire type; with distinct generated suffixes the generated names
are pairwise distinct; and the finalized SQL is the original with every
occurrence of the literal substring `:name` textually replaced by the
parenthesized comma-separated placeholder list — the substring `:name`
itself may still appear, since every generated placeholder extends the
original name. -/
theorem c2_amended_expansion (uuid : Nat → String) (query name value : String)
    (dt : ParamDatatype) (hdt : dt ≠ .cursor)
    (htoks : inListTokens (some value) ≠ [])
    (hinj : ∀ i, i < (inListTokens (some value)).length →
      ∀ j, j < (inListTokens (some value)).length → uuid i = uuid j → i = j) :
    compileBinds uuid query [⟨name, some value, dt, .din, none, true⟩]
      = .ok ⟨jsReplaceAll query (":" ++ name)
               ("(" ++ placeholderChain uuid name 0 (inListTokens (some value)) ++ ")"),
             expandedEntries uuid name dt 0 (inListTokens (some value)),
             (inListTokens (some value)).length⟩ ∧
    ((expandedEntries uuid name dt 0 (inListTokens (some value))).map Prod.fst).Nodup ∧
    (expandedEntries uuid name dt 0 (inListTokens (some value))).length
      = (inListTokens (some value)).length := by
  have hdist : ∀ i j, i < (inListTokens (some value)).length →
      j < (inListTokens (some value)).length → i ≠ j →
      name ++ uuid (0 + i) ≠ name ++ uuid (0 + j) := by
    intro i j hi hj hne heq
    have hu := sapp_left_cancel heq
    simp only [Nat.zero_add] at hu
    exact hne (hinj i hi j hj hu)
  refine ⟨?_, expandedEntries_fst_nodup uuid name dt _ 0 hdist,
    expandedEntries_length uuid name dt _ 0⟩
  have hempty : (inListTokens (some value)).isEmpty = false := by
    cases h : inListTokens (some value) with
    | nil => exact absurd h htoks
    | cons a l => rfl
  have hfold := expand_foldl_spec uuid name dt (inListTokens (some value))
    ⟨query, [], 0⟩ "(" (by intro i hi kb hkb; cases hkb) hdist
  show (processItem uuid ⟨name, some value, dt, .din, none, true⟩ ⟨query, [], 0⟩ >>=
      fun st => pure st) = _
  simp only [processItem, hdt, hempty]
  rw [hfold, slice_comma_chain uuid name _ 0 htoks]
  simp

/-- C2 witness: the amended theorem at the spec's concrete end-to-end
instance (`ids`, value `"1, 2, 3"`, number, injective suffixes). -/
theorem c2_amended_expansion_witness :
    compileBinds uuidW "SELECT id FROM t WHERE id IN (:ids)"
      [⟨"ids", some "1, 2, 3", .number, .din, none, true⟩]
      = .ok ⟨jsReplaceAll "SELECT id FROM t WHERE id IN (:ids)" (":" ++ "ids")
               ("(" ++ placeholderChain uuidW "ids" 0 (inListTokens (some "1, 2, 3"))
                  ++ ")"),
             expandedEntries uuidW "ids" .number 0 (inListTokens (some "1, 2, 3")),
             (inListTokens (some "1, 2, 3")).length⟩ ∧
    ((expandedEntries uuidW "ids" .number 0
        (inListTokens (some "1, 2, 3"))).map Prod.fst).Nodup ∧
    (expandedEntries uuidW "ids" .number 0 (inListTokens (some "1, 2, 3"))).length
      = (inListTokens (some "1, 2, 3")).length :=
  c2_amended_expansion uuidW "SELECT id FROM t WHERE id IN (:ids)" "ids" "1, 2, 3"
    .number (by decide) (by decide) (by decide)

end OracleNode

